import Mathlib

/-
Verification of the authentication and validation slice of the
learn-nextjs-again repository.

The development shallowly embeds:
  - the JWT utility module (signToken / verifyToken / extractBearerToken /
    authenticateRequest) together with a model of the jsonwebtoken library
    it wraps (jwtSign / jwtVerify),
  - the Zod validation schemas (loginSchema, messageSchema) including a
    model of Zod's email grammar,
  - the POST /api/auth/login route (MOCK_USERS, loginPOST) and the
    POST /api/messages route (messagesPOST).

External libraries (jsonwebtoken, zod) are modelled faithfully to their
documented behaviour; in particular the class hierarchy of jsonwebtoken's
errors (TokenExpiredError extends JsonWebTokenError) is part of the model,
and HMAC-SHA256 is modelled as an idealized message-authentication code
that is collision-free for a fixed key.  Base64url encoding of the JSON
header and claims is modelled by an injective character-level escaping
whose output never contains the dot separator, which is the property the
real encoding provides to the token grammar.
-/

/-- Minimal JSON value model for the bodies produced by NextResponse.json. -/
inductive Json where
  | null : Json
  | bool (b : Bool) : Json
  | num (n : Nat) : Json
  | str (s : String) : Json
  | arr (xs : List Json) : Json
  | obj (fields : List (String × Json)) : Json
deriving BEq

/-- Model of an HTTP response produced by NextResponse.json: a status code
and a JSON body. -/
structure Response where
  status : Nat
  body : Json
deriving BEq

/-- Decimal digit to its ASCII character. -/
def digitToChar (d : Nat) : Char := Char.ofNat (48 + d)

/-- ASCII digit character back to its value. -/
def charToDigit (c : Char) : Nat := c.toNat - 48

/-- Little-endian decimal digit characters of n, with explicit fuel so the
definition is structurally recursive and kernel-reducible. -/
def natDigitsAux : Nat → Nat → List Char
  | 0, _ => []
  | _ + 1, 0 => []
  | fuel + 1, n + 1 => digitToChar ((n + 1) % 10) :: natDigitsAux fuel ((n + 1) / 10)

/-- Big-endian decimal representation of a natural number, as produced by
JSON serialisation of the numeric claims. -/
def natChars (n : Nat) : List Char :=
  if n = 0 then ['0'] else (natDigitsAux (n + 1) n).reverse

/-- Value of a big-endian digit-character string. -/
def charsVal (l : List Char) : Nat :=
  l.foldl (fun a c => a * 10 + charToDigit c) 0

/-- Parse a big-endian decimal string; fails on the empty string or on any
non-digit character. -/
def charsToNat (l : List Char) : Option Nat :=
  if l ≠ [] ∧ l.all Char.isDigit then some (charsVal l) else none

/-- Little-endian value of a digit-character string, used to reason about
natDigitsAux. -/
def lval : List Char → Nat
  | [] => 0
  | c :: cs => charToDigit c + 10 * lval cs

/-- Character-level escaping used to model base64url encoding of JSON string
fields: injective, and its output never contains the dot or comma separators
of the token and claims grammar. -/
def escChar (c : Char) : List Char :=
  if c = '\\' then ['\\', '\\']
  else if c = '.' then ['\\', 'd']
  else if c = ',' then ['\\', 'c']
  else [c]

/-- Escape every character of a string. -/
def escapeL : List Char → List Char
  | [] => []
  | c :: cs => escChar c ++ escapeL cs

/-- Inverse of escapeL; fails on ill-formed escape sequences. -/
def unescapeL : List Char → Option (List Char)
  | [] => some []
  | c :: cs =>
    if c = '\\' then
      match cs with
      | [] => none
      | d :: rest =>
        if d = 'd' then (unescapeL rest).map (fun l => '.' :: l)
        else if d = 'c' then (unescapeL rest).map (fun l => ',' :: l)
        else if d = '\\' then (unescapeL rest).map (fun l => '\\' :: l)
        else none
    else (unescapeL cs).map (fun l => c :: l)

/-- Token claims carried by a JWT, as declared by the JWTPayload interface of
the jwt utility module: userId, username, issued-at and expiry timestamps
(seconds since epoch). -/
structure JWTPayload where
  userId : String
  username : String
  iat : Nat
  exp : Nat
deriving DecidableEq

/-- Model of the base64url-encoded JSON claims segment produced by jwt.sign:
an injective serialisation of the four claim fields whose output contains no
dot, so that the three-part token grammar is unambiguous. -/
def encodePayload (p : JWTPayload) : String :=
  String.mk (escapeL p.userId.data ++ ',' :: (escapeL p.username.data ++
    ',' :: (natChars p.iat ++ ',' :: natChars p.exp)))

/-- Decoding of the claims segment at the character-list level; fails on
anything that is not the serialisation of a claims record. -/
def decodePayloadL (l : List Char) : Option JWTPayload :=
  match l.splitOn ',' with
  | [a, b, c, d] =>
    match unescapeL a, unescapeL b, charsToNat c, charsToNat d with
    | some uid, some un, some ia, some ex =>
        some ⟨String.mk uid, String.mk un, ia, ex⟩
    | _, _, _, _ => none
  | _ => none

/-- Model of decoding the claims segment of a token. -/
def decodePayload (s : String) : Option JWTPayload :=
  decodePayloadL s.data

/-- Dot-avoiding character map used by the MAC model so that signatures fit
the dot-separated token grammar. -/
def dotToComma (c : Char) : Char := if c = '.' then ',' else c

/-- Model of HMAC-SHA256 as used by the jsonwebtoken library: an idealized
message-authentication code, injective in the message for a fixed key
(capturing collision-freeness of the real MAC), whose output never contains
a dot. -/
def hmacSHA256 (secret msg : String) : String :=
  String.mk ('#' :: (secret.data.map dotToComma ++ '#' :: msg.data.map dotToComma))

/-- Errors thrown by the jsonwebtoken library's verify function.  In the
library, TokenExpiredError and NotBeforeError are subclasses of
JsonWebTokenError, a fact reflected by the instance predicates below. -/
inductive JwtLibError where
  | malformed : JwtLibError
  | invalidSignature : JwtLibError
  | invalidPayload : JwtLibError
  | tokenExpired : JwtLibError
deriving DecidableEq

/-- Test modelling the JavaScript check (error instanceof jwt.JsonWebTokenError):
true for every verification error, since TokenExpiredError extends
JsonWebTokenError in the jsonwebtoken library. -/
def JwtLibError.isJsonWebTokenError : JwtLibError → Bool := fun _ => true

/-- Test modelling the JavaScript check (error instanceof jwt.TokenExpiredError). -/
def JwtLibError.isTokenExpiredError : JwtLibError → Bool
  | .tokenExpired => true
  | _ => false

/-- Symmetric secret shared by signer and verifier: value of
process.env.JWT_SECRET with its fallback literal default, as read by the jwt
utility module. -/
def JWT_SECRET : String := "demo-secret-key-change-in-production"

/-- Model of the constant base64url-encoded JWT header segment for algorithm
HS256 produced by jwt.sign; dot-free, as the real encoding is. -/
def jwtHeaderEnc : String := "HS256JWT"

/-- Model of jwt.sign from the jsonwebtoken library: the token is
header.claims.signature where the signature is the MAC of header.claims
under the shared secret. -/
def jwtSign (p : JWTPayload) : String :=
  jwtHeaderEnc ++ "." ++ encodePayload p ++ "." ++
    hmacSHA256 JWT_SECRET (jwtHeaderEnc ++ "." ++ encodePayload p)

/-- Model of jwt.verify from the jsonwebtoken library: split on dots into
exactly three segments, check the signature over header.claims against the
shared secret, decode the claims, then reject if the expiry timestamp is not
in the future (the library treats clockTimestamp >= exp as expired). -/
def jwtVerify (token : String) (now : Nat) : Except JwtLibError JWTPayload :=
  match token.data.splitOn '.' with
  | [h, c, s] =>
    if s = (hmacSHA256 JWT_SECRET (String.mk (h ++ '.' :: c))).data then
      match decodePayloadL c with
      | some p => if p.exp ≤ now then Except.error JwtLibError.tokenExpired
                  else Except.ok p
      | none => Except.error JwtLibError.invalidPayload
    else Except.error JwtLibError.invalidSignature
  | _ => Except.error JwtLibError.malformed

/-- Embedding of verifyToken from the jwt utility module: delegate to
jwt.verify and translate library errors, testing instanceof
JsonWebTokenError first and instanceof TokenExpiredError second, exactly as
the catch branches do. -/
def verifyToken (token : String) (now : Nat) : Except String JWTPayload :=
  match jwtVerify token now with
  | Except.ok p => Except.ok p
  | Except.error e =>
    if e.isJsonWebTokenError then Except.error "Invalid token"
    else if e.isTokenExpiredError then Except.error "Token expired"
    else Except.error "Token verification failed"

/-- Embedding of signToken from the jwt utility module: sign the user data
with issued-at now and expiry now plus expiresInSeconds; the source's
default expiresIn argument is the string 1h, i.e. 3600 seconds. -/
def signToken (userId username : String) (now expiresInSeconds : Nat) : String :=
  jwtSign ⟨userId, username, now, now + expiresInSeconds⟩

/-- Embedding of extractBearerToken: null and the empty header are falsy; a
header not starting with the literal case-sensitive Bearer-space returns
null; otherwise the substring from index 7 is returned. -/
def extractBearerToken (authHeader : Option String) : Option String :=
  match authHeader with
  | none => none
  | some h =>
    if h = "" ∨ ¬ ("Bearer ".data.isPrefixOf h.data) then none
    else some (String.mk (h.data.drop 7))

/-- Embedding of authenticateRequest: extract the bearer token from the
Authorization header; a null or empty token (both falsy in JavaScript)
raises No token provided; otherwise verify. -/
def authenticateRequest (authHeader : Option String) (now : Nat) :
    Except String JWTPayload :=
  match extractBearerToken authHeader with
  | none => Except.error "No token provided"
  | some t => if t = "" then Except.error "No token provided" else verifyToken t now

/-- Characters allowed anywhere but last in the local part of Zod's email
regex (case-insensitive alphanumerics, underscore, apostrophe, plus, hyphen,
dot). -/
def isLocalChar (c : Char) : Bool :=
  c.isAlphanum || c = '_' || c = '\x27' || c = '+' || c = '-' || c = '.'

/-- Characters allowed as the final character of the local part. -/
def isLocalEnd (c : Char) : Bool :=
  c.isAlphanum || c = '_' || c = '+' || c = '-'

/-- Characters allowed after the first character of a domain label. -/
def isLabelChar (c : Char) : Bool := c.isAlphanum || c = '-'

/-- Domain label: alphanumeric first character, then alphanumerics or
hyphens. -/
def labelOk (l : List Char) : Bool :=
  match l with
  | [] => false
  | c :: cs => c.isAlphanum && cs.all isLabelChar

/-- Final domain segment: at least two letters. -/
def tldOk (l : List Char) : Bool :=
  decide (2 ≤ l.length) && l.all Char.isAlpha

/-- Test for two consecutive dots anywhere in the string. -/
def hasDoubleDot : List Char → Bool
  | [] => false
  | [_] => false
  | a :: b :: rest => (a == '.' && b == '.') || hasDoubleDot (b :: rest)

/-- Local part of the address: every character from the local alphabet and
the last character from the restricted end alphabet. -/
def localOk (l : List Char) : Bool :=
  match l.reverse with
  | [] => false
  | lastc :: _ => l.all isLocalChar && isLocalEnd lastc

/-- Domain of the address: one or more labels followed by a final segment of
at least two letters, separated by dots. -/
def domainOk (l : List Char) : Bool :=
  match (l.splitOn '.').reverse with
  | [] => false
  | tld :: labels => !labels.isEmpty && labels.all labelOk && tldOk tld

/-- Model of the email grammar enforced by Zod's z.string().email(): no
leading dot, no consecutive dots, a local part over the local alphabet
ending in the restricted alphabet, an at sign, and a dotted domain ending in
a two-plus-letter segment. -/
def zodEmailCheck (s : String) : Bool :=
  (match s.data with
   | [] => false
   | c :: _ => c != '.') &&
  !hasDoubleDot s.data &&
  (match s.data.splitOn '@' with
   | [localPart, domainPart] => localOk localPart && domainOk domainPart
   | _ => false)

/-- Body of a message-submission request after JSON parsing. -/
structure MessageInput where
  name : String
  email : String
  message : String

/-- Issues reported by the name rule of messageSchema: min 2, max 100. -/
def nameErrors (s : String) : List String :=
  (if s.length < 2 then ["Name must be at least 2 characters"] else []) ++
    (if s.length > 100 then ["Name is too long"] else [])

/-- Issues reported by the email rule of messageSchema. -/
def emailErrors (s : String) : List String :=
  if zodEmailCheck s then [] else ["Invalid email address"]

/-- Issues reported by the message rule of messageSchema: min 10, max 1000. -/
def messageErrors (s : String) : List String :=
  (if s.length < 10 then ["Message must be at least 10 characters"] else []) ++
    (if s.length > 1000 then ["Message is too long"] else [])

/-- Model of messageSchema.safeParse succeeding on the given input. -/
def messageSchemaAccepts (i : MessageInput) : Bool :=
  (nameErrors i.name).isEmpty && (emailErrors i.email).isEmpty &&
    (messageErrors i.message).isEmpty

/-- Model of validationResult.error.flatten().fieldErrors for messageSchema:
an object with one key per failing field, each mapped to its list of
messages. -/
def messageSchemaFieldErrors (i : MessageInput) : List (String × Json) :=
  (if nameErrors i.name = [] then []
   else [("name", Json.arr ((nameErrors i.name).map Json.str))]) ++
  (if emailErrors i.email = [] then []
   else [("email", Json.arr ((emailErrors i.email).map Json.str))]) ++
  (if messageErrors i.message = [] then []
   else [("message", Json.arr ((messageErrors i.message).map Json.str))])

/-- Issues reported by the username rule of loginSchema: min 3. -/
def usernameErrors (s : String) : List String :=
  if s.length < 3 then ["Username must be at least 3 characters"] else []

/-- Issues reported by the password rule of loginSchema: min 6. -/
def passwordErrors (s : String) : List String :=
  if s.length < 6 then ["Password must be at least 6 characters"] else []

/-- Model of loginSchema.safeParse succeeding. -/
def loginSchemaAccepts (username password : String) : Bool :=
  (usernameErrors username).isEmpty && (passwordErrors password).isEmpty

/-- Model of fieldErrors for loginSchema. -/
def loginSchemaFieldErrors (username password : String) : List (String × Json) :=
  (if usernameErrors username = [] then []
   else [("username", Json.arr ((usernameErrors username).map Json.str))]) ++
  (if passwordErrors password = [] then []
   else [("password", Json.arr ((passwordErrors password).map Json.str))])

/-- Entry of the mock user database of the login route. -/
structure Account where
  id : String
  username : String
  password : String
deriving DecidableEq

/-- The fixed in-memory account list MOCK_USERS of the login route. -/
def MOCK_USERS : List Account :=
  [⟨"1", "demo", "demo123"⟩, ⟨"2", "testuser", "test123"⟩]

/-- Parsed body of a login request. -/
structure LoginBody where
  username : String
  password : String

/-- Embedding of the POST /api/auth/login handler: validate the body with
loginSchema (400 with field details on failure), look up an account whose
username and password both match exactly (401 Invalid credentials on no
match), then issue a token with the default one-hour validity and return it
with the public identity fields. -/
def loginPOST (body : LoginBody) (now : Nat) : Response :=
  if loginSchemaAccepts body.username body.password then
    match MOCK_USERS.find?
        (fun u => u.username == body.username && u.password == body.password) with
    | none => ⟨401, Json.obj [("error", Json.str "Invalid credentials")]⟩
    | some u =>
        ⟨200, Json.obj [("success", Json.bool true),
          ("token", Json.str (signToken u.id u.username now 3600)),
          ("user", Json.obj [("id", Json.str u.id),
            ("username", Json.str u.username)])]⟩
  else
    ⟨400, Json.obj [("error", Json.str "Validation failed"),
      ("details", Json.obj (loginSchemaFieldErrors body.username body.password))]⟩

/-- First fifty characters of the message plus an ellipsis when truncated,
as computed by the messages route for its success body. -/
def messagePreviewStr (s : String) : String :=
  s.take 50 ++ (if s.length > 50 then "..." else "")

/-- Embedding of the POST /api/messages handler: authenticate first (401
with the error message of the failure on any authentication error), then
validate the body with messageSchema (400 with field details on failure),
then answer 200 with the echoed data and the submitter identity. -/
def messagesPOST (authHeader : Option String) (now : Nat) (body : MessageInput) :
    Response :=
  match authenticateRequest authHeader now with
  | Except.error m =>
      ⟨401, Json.obj [("error", Json.str "Unauthorized"), ("message", Json.str m)]⟩
  | Except.ok user =>
    if messageSchemaAccepts body then
      ⟨200, Json.obj [("success", Json.bool true),
        ("message", Json.str "Message received successfully"),
        ("data", Json.obj [
          ("id", Json.str ("msg_" ++ toString now)),
          ("name", Json.str body.name),
          ("email", Json.str body.email),
          ("messagePreview", Json.str (messagePreviewStr body.message)),
          ("submittedBy", Json.str user.username),
          ("submittedAt", Json.str (toString now))])]⟩
    else
      ⟨400, Json.obj [("error", Json.str "Validation failed"),
        ("details", Json.obj (messageSchemaFieldErrors body))]⟩

theorem charToDigit_digitToChar {d : Nat} (h : d < 10) :
    charToDigit (digitToChar d) = d := by
  interval_cases d <;> decide

theorem isDigit_digitToChar {d : Nat} (h : d < 10) :
    (digitToChar d).isDigit = true := by
  interval_cases d <;> decide

theorem lval_natDigitsAux : ∀ fuel n, n < fuel → lval (natDigitsAux fuel n) = n := by
  intro fuel
  induction fuel with
  | zero => intro n h; omega
  | succ f ih =>
    intro n h
    match n with
    | 0 => simp [natDigitsAux, lval]
    | m + 1 =>
      have hdiv : (m + 1) / 10 < f := by
        have h1 : (m + 1) / 10 < m + 1 := Nat.div_lt_self (Nat.succ_pos m) (by norm_num)
        omega
      simp only [natDigitsAux, lval]
      rw [ih _ hdiv, charToDigit_digitToChar (Nat.mod_lt _ (by norm_num))]
      omega

theorem isDigit_natDigitsAux : ∀ fuel n c, c ∈ natDigitsAux fuel n → c.isDigit = true := by
  intro fuel
  induction fuel with
  | zero => intro n c h; simp [natDigitsAux] at h
  | succ f ih =>
    intro n c h
    match n with
    | 0 => simp [natDigitsAux] at h
    | m + 1 =>
      simp only [natDigitsAux, List.mem_cons] at h
      rcases h with h | h
      · exact h ▸ isDigit_digitToChar (Nat.mod_lt _ (by norm_num))
      · exact ih _ _ h

theorem natDigitsAux_ne_nil (n : Nat) (h : 0 < n) : natDigitsAux (n + 1) n ≠ [] := by
  match n with
  | 0 => omega
  | m + 1 => simp [natDigitsAux]

theorem charsVal_reverse : ∀ l : List Char, ∀ acc : Nat,
    (l.reverse).foldl (fun a c => a * 10 + charToDigit c) acc =
      acc * 10 ^ l.length + lval l := by
  intro l
  induction l with
  | nil => intro acc; simp [lval]
  | cons c cs ih =>
    intro acc
    simp only [List.reverse_cons, List.foldl_append, List.foldl_cons, List.foldl_nil,
      List.length_cons, lval, ih]
    ring

theorem charsToNat_natChars (n : Nat) : charsToNat (natChars n) = some n := by
  by_cases h0 : n = 0
  · subst h0; decide
  · have hpos : 0 < n := Nat.pos_of_ne_zero h0
    have hne : natDigitsAux (n + 1) n ≠ [] := natDigitsAux_ne_nil n hpos
    have hdig : ∀ c ∈ (natDigitsAux (n + 1) n).reverse, c.isDigit = true := by
      intro c hc
      exact isDigit_natDigitsAux _ _ _ (List.mem_reverse.mp hc)
    unfold natChars charsToNat
    rw [if_neg h0]
    rw [if_pos]
    · unfold charsVal
      rw [charsVal_reverse]
      simp [lval_natDigitsAux (n + 1) n (Nat.lt_succ_self n)]
    · constructor
      · simpa using hne
      · exact List.all_eq_true.mpr hdig

theorem natChars_isDigit {n : Nat} {c : Char} (h : c ∈ natChars n) : c.isDigit = true := by
  unfold natChars at h
  by_cases h0 : n = 0
  · rw [if_pos h0] at h
    simp at h
    subst h; decide
  · rw [if_neg h0] at h
    exact isDigit_natDigitsAux _ _ _ (List.mem_reverse.mp h)

theorem isDigit_ne_dot {c : Char} (h : c.isDigit = true) : c ≠ '.' := by
  intro hc; subst hc; simp [Char.isDigit] at h

theorem isDigit_ne_comma {c : Char} (h : c.isDigit = true) : c ≠ ',' := by
  intro hc; subst hc; simp [Char.isDigit] at h

theorem unescapeL_escapeL : ∀ l : List Char, unescapeL (escapeL l) = some l := by
  intro l
  induction l with
  | nil => rfl
  | cons c cs ih =>
    by_cases hb : c = '\\'
    · subst hb
      show (unescapeL (escapeL cs)).map (fun l => '\\' :: l) = some ('\\' :: cs)
      rw [ih]; rfl
    · by_cases hd : c = '.'
      · subst hd
        show (unescapeL (escapeL cs)).map (fun l => '.' :: l) = some ('.' :: cs)
        rw [ih]; rfl
      · by_cases hc : c = ','
        · subst hc
          show (unescapeL (escapeL cs)).map (fun l => ',' :: l) = some (',' :: cs)
          rw [ih]; rfl
        · have he : escapeL (c :: cs) = c :: escapeL cs := by
            simp [escapeL, escChar, hb, hd, hc]
          rw [he]
          cases hE : escapeL cs with
          | nil =>
            rw [hE] at ih
            have hcs : cs = [] := by
              have h1 : some ([] : List Char) = some cs := by
                simpa [unescapeL] using ih
              simpa using h1.symm
            subst hcs
            simp [unescapeL, hb]
          | cons d rest =>
            rw [hE] at ih
            simp [unescapeL, hb, ih]

theorem escapeL_ne_sep : ∀ l : List Char, ∀ c ∈ escapeL l, c ≠ '.' ∧ c ≠ ',' := by
  intro l
  induction l with
  | nil => intro c h; simp [escapeL] at h
  | cons x xs ih =>
    intro c h
    simp only [escapeL, List.mem_append] at h
    rcases h with h | h
    · unfold escChar at h
      by_cases hb : x = '\\'
      · rw [if_pos hb] at h
        simp at h
        subst h; exact ⟨by decide, by decide⟩
      · rw [if_neg hb] at h
        by_cases hd : x = '.'
        · rw [if_pos hd] at h
          simp at h
          rcases h with h | h <;> (subst h; exact ⟨by decide, by decide⟩)
        · rw [if_neg hd] at h
          by_cases hc : x = ','
          · rw [if_pos hc] at h
            simp at h
            rcases h with h | h <;> (subst h; exact ⟨by decide, by decide⟩)
          · rw [if_neg hc] at h
            simp at h
            subst h; exact ⟨hd, hc⟩
    · exact ih c h

theorem splitOnP_parts {α : Type} (p : α → Bool) :
    ∀ l : List α, ∀ part ∈ l.splitOnP p, ∀ x ∈ part, ¬ p x = true := by
  intro l
  induction l with
  | nil =>
    intro part hp x hx
    simp [List.splitOnP_nil] at hp
    subst hp
    simp at hx
  | cons a l ih =>
    intro part hp x hx
    rw [List.splitOnP_cons] at hp
    by_cases hpa : p a
    · rw [if_pos hpa] at hp
      rcases List.mem_cons.mp hp with h | h
      · subst h; simp at hx
      · exact ih part h x hx
    · rw [if_neg hpa] at hp
      cases hsp : l.splitOnP p with
      | nil => exact absurd hsp (List.splitOnP_ne_nil p l)
      | cons hd tl =>
        rw [hsp] at hp
        simp only [List.modifyHead] at hp
        rcases List.mem_cons.mp hp with h | h
        · subst h
          rcases List.mem_cons.mp hx with h | h
          · subst h; exact hpa
          · exact ih hd (hsp ▸ List.mem_cons_self hd tl) x h
        · exact ih part (hsp ▸ List.mem_cons_of_mem hd h) x hx

theorem splitOn_parts_ne {l : List Char} {sep : Char} {part : List Char}
    (hp : part ∈ l.splitOn sep) : ∀ x ∈ part, x ≠ sep := by
  intro x hx
  have := splitOnP_parts (· == sep) l part hp x hx
  simpa using this

theorem splitOn_singleton_eq {l : List Char} {sep : Char} {x : List Char}
    (h : l.splitOn sep = [x]) : l = x := by
  have hi := List.intercalate_splitOn l sep
  rw [h] at hi
  simpa [List.intercalate] using hi.symm

theorem splitOn_cons_of_ne {sep : Char} (a rest : List Char) (ha : ∀ x ∈ a, x ≠ sep) :
    (a ++ sep :: rest).splitOn sep = a :: rest.splitOn sep :=
  List.splitOnP_first (fun x => x == sep) a (by intro x hx; simp [ha x hx]) sep
    (by simp) rest

theorem splitOn_single_of_ne {sep : Char} (a : List Char) (ha : ∀ x ∈ a, x ≠ sep) :
    a.splitOn sep = [a] :=
  List.splitOnP_eq_single (fun x => x == sep) a (by intro x hx; simp [ha x hx])

theorem splitOn_three {sep : Char} (a b c : List Char)
    (ha : ∀ x ∈ a, x ≠ sep) (hb : ∀ x ∈ b, x ≠ sep) (hc : ∀ x ∈ c, x ≠ sep) :
    (a ++ sep :: (b ++ sep :: c)).splitOn sep = [a, b, c] := by
  rw [splitOn_cons_of_ne a _ ha, splitOn_cons_of_ne b _ hb, splitOn_single_of_ne c hc]

theorem splitOn_four {sep : Char} (a b c d : List Char)
    (ha : ∀ x ∈ a, x ≠ sep) (hb : ∀ x ∈ b, x ≠ sep) (hc : ∀ x ∈ c, x ≠ sep)
    (hd : ∀ x ∈ d, x ≠ sep) :
    (a ++ sep :: (b ++ sep :: (c ++ sep :: d))).splitOn sep = [a, b, c, d] := by
  rw [splitOn_cons_of_ne a _ ha, splitOn_cons_of_ne b _ hb, splitOn_cons_of_ne c _ hc,
    splitOn_single_of_ne d hd]

theorem escapeL_ne_comma {l : List Char} : ∀ x ∈ escapeL l, x ≠ ',' :=
  fun x hx => (escapeL_ne_sep l x hx).2

theorem escapeL_ne_dot {l : List Char} : ∀ x ∈ escapeL l, x ≠ '.' :=
  fun x hx => (escapeL_ne_sep l x hx).1

theorem natChars_ne_comma {n : Nat} : ∀ x ∈ natChars n, x ≠ ',' :=
  fun _ hx => isDigit_ne_comma (natChars_isDigit hx)

theorem natChars_ne_dot {n : Nat} : ∀ x ∈ natChars n, x ≠ '.' :=
  fun _ hx => isDigit_ne_dot (natChars_isDigit hx)

theorem decodePayload_encodePayload (p : JWTPayload) :
    decodePayload (encodePayload p) = some p := by
  unfold decodePayload decodePayloadL encodePayload
  rw [show (String.mk (escapeL p.userId.data ++ ',' :: (escapeL p.username.data ++
      ',' :: (natChars p.iat ++ ',' :: natChars p.exp)))).data =
      escapeL p.userId.data ++ ',' :: (escapeL p.username.data ++
      ',' :: (natChars p.iat ++ ',' :: natChars p.exp)) from rfl]
  rw [splitOn_four _ _ _ _ escapeL_ne_comma escapeL_ne_comma natChars_ne_comma
    natChars_ne_comma]
  simp [unescapeL_escapeL, charsToNat_natChars]

theorem encodePayload_ne_dot (p : JWTPayload) :
    ∀ x ∈ (encodePayload p).data, x ≠ '.' := by
  intro x hx
  unfold encodePayload at hx
  simp only [List.mem_append, List.mem_cons] at hx
  rcases hx with h | h | h | h | h | h | h
  · exact escapeL_ne_dot x h
  · subst h; decide
  · exact escapeL_ne_dot x h
  · subst h; decide
  · exact natChars_ne_dot x h
  · subst h; decide
  · exact natChars_ne_dot x h

theorem dotToComma_ne_dot (c : Char) : dotToComma c ≠ '.' := by
  unfold dotToComma
  by_cases h : c = '.'
  · rw [if_pos h]; decide
  · rw [if_neg h]; exact h

theorem hmacSHA256_ne_dot (secret msg : String) :
    ∀ x ∈ (hmacSHA256 secret msg).data, x ≠ '.' := by
  intro x hx
  unfold hmacSHA256 at hx
  simp only [List.mem_cons, List.mem_append, List.mem_map] at hx
  rcases hx with h | h | h | h
  · subst h; decide
  · obtain ⟨c, _, hc⟩ := h; exact hc ▸ dotToComma_ne_dot c
  · subst h; decide
  · obtain ⟨c, _, hc⟩ := h; exact hc ▸ dotToComma_ne_dot c

theorem map_dotToComma_id {l : List Char} (h : ∀ x ∈ l, x ≠ '.') :
    l.map dotToComma = l := by
  induction l with
  | nil => rfl
  | cons c cs ih =>
    simp only [List.map_cons]
    rw [ih (fun x hx => h x (List.mem_cons_of_mem c hx))]
    unfold dotToComma
    rw [if_neg (h c (List.mem_cons_self c cs))]

theorem hmacSHA256_inj_of_ne_dot {secret m1 m2 : String}
    (h1 : ∀ x ∈ m1.data, x ≠ '.') (h2 : ∀ x ∈ m2.data, x ≠ '.')
    (h : hmacSHA256 secret m1 = hmacSHA256 secret m2) : m1 = m2 := by
  unfold hmacSHA256 at h
  have hd := congrArg String.data h
  simp only at hd
  have hd2 := List.cons_injective hd
  have hd3 := List.append_cancel_left hd2
  have hd4 := List.cons_injective hd3
  rw [map_dotToComma_id h1, map_dotToComma_id h2] at hd4
  exact String.ext hd4

theorem decodePayloadL_encodePayload (p : JWTPayload) :
    decodePayloadL (encodePayload p).data = some p :=
  decodePayload_encodePayload p

theorem jwtHeaderEnc_ne_dot : ∀ x ∈ jwtHeaderEnc.data, x ≠ '.' := by decide

theorem jwtSign_data (p : JWTPayload) :
    (jwtSign p).data = jwtHeaderEnc.data ++ '.' :: ((encodePayload p).data ++
      '.' :: (hmacSHA256 JWT_SECRET (jwtHeaderEnc ++ "." ++ encodePayload p)).data) := by
  simp [jwtSign, String.data_append]

theorem jwtVerify_jwtSign (p : JWTPayload) (now : Nat) (hnow : now < p.exp) :
    jwtVerify (jwtSign p) now = Except.ok p := by
  unfold jwtVerify
  rw [jwtSign_data,
    splitOn_three _ _ _ jwtHeaderEnc_ne_dot (encodePayload_ne_dot p)
      (hmacSHA256_ne_dot _ _)]
  simp only []
  have hcond : (hmacSHA256 JWT_SECRET (jwtHeaderEnc ++ "." ++ encodePayload p)).data =
      (hmacSHA256 JWT_SECRET
        (String.mk (jwtHeaderEnc.data ++ '.' :: (encodePayload p).data))).data := rfl
  rw [if_pos hcond, decodePayloadL_encodePayload]
  show (if p.exp ≤ now then Except.error JwtLibError.tokenExpired else Except.ok p) =
    Except.ok p
  rw [if_neg (by omega)]

theorem length_splitOnP {α : Type} (p : α → Bool) :
    ∀ l : List α, (l.splitOnP p).length = l.countP p + 1 := by
  intro l
  induction l with
  | nil => simp [List.splitOnP_nil]
  | cons a l ih =>
    rw [List.splitOnP_cons]
    by_cases hpa : p a
    · rw [if_pos hpa]
      simp [List.countP_cons, hpa, ih]
    · rw [if_neg hpa]
      cases hsp : l.splitOnP p with
      | nil => exact absurd hsp (List.splitOnP_ne_nil p l)
      | cons hd tl =>
        rw [hsp] at ih
        simp only [List.modifyHead, List.length_cons] at ih ⊢
        simp [List.countP_cons, hpa, ih]

theorem length_splitOn_char (l : List Char) (sep : Char) :
    (l.splitOn sep).length = l.countP (fun x => x == sep) + 1 :=
  length_splitOnP (fun x => x == sep) l

theorem jwtVerify_malformed_of_ne_three {t : String} {now : Nat}
    (h : (t.data.splitOn '.').length ≠ 3) :
    jwtVerify t now = Except.error JwtLibError.malformed := by
  unfold jwtVerify
  split
  · rename_i heq
    rw [heq] at h
    simp at h
  · rfl

theorem token_data (A B C : String) :
    (A ++ "." ++ B ++ "." ++ C).data = A.data ++ '.' :: (B.data ++ '.' :: C.data) := by
  simp [String.data_append]

theorem body_mk_eq (p : JWTPayload) :
    String.mk (jwtHeaderEnc.data ++ '.' :: (encodePayload p).data) =
      jwtHeaderEnc ++ "." ++ encodePayload p := by
  apply String.ext
  simp [String.data_append]

theorem verifyToken_of_jwtVerify_ok {t : String} {now : Nat} {p : JWTPayload}
    (h : jwtVerify t now = Except.ok p) : verifyToken t now = Except.ok p := by
  unfold verifyToken
  rw [h]

theorem verifyToken_of_jwtVerify_error {t : String} {now : Nat} {e : JwtLibError}
    (h : jwtVerify t now = Except.error e) :
    verifyToken t now = Except.error "Invalid token" := by
  unfold verifyToken
  rw [h]
  rfl

theorem jwtVerify_of_verifyToken_ok {t : String} {now : Nat} {p : JWTPayload}
    (h : verifyToken t now = Except.ok p) : jwtVerify t now = Except.ok p := by
  unfold verifyToken at h
  cases hv : jwtVerify t now with
  | ok q => rw [hv] at h; injection h with h; rw [h]
  | error e =>
    rw [hv] at h
    simp [JwtLibError.isJsonWebTokenError] at h

theorem hmacSHA256_map_eq {secret m1 m2 : String}
    (h : hmacSHA256 secret m1 = hmacSHA256 secret m2) :
    m1.data.map dotToComma = m2.data.map dotToComma := by
  unfold hmacSHA256 at h
  have hd := congrArg String.data h
  simp only at hd
  exact List.cons_injective (List.append_cancel_left (List.cons_injective hd))

theorem hmac_body_inj {H c1 c2 : List Char}
    (hH : ∀ x ∈ H, x ≠ '.') (h1 : ∀ x ∈ c1, x ≠ '.') (h2 : ∀ x ∈ c2, x ≠ '.')
    (h : hmacSHA256 JWT_SECRET (String.mk (H ++ '.' :: c1)) =
      hmacSHA256 JWT_SECRET (String.mk (H ++ '.' :: c2))) : c1 = c2 := by
  have hm := hmacSHA256_map_eq h
  simp only [List.map_append, List.map_cons] at hm
  rw [map_dotToComma_id hH, map_dotToComma_id h1, map_dotToComma_id h2] at hm
  have := List.append_cancel_left hm
  exact List.cons_injective this

theorem token_splitOn_len {A B C : List Char}
    (hA : ∀ x ∈ A, x ≠ '.') (hB : ∀ x ∈ B, x ≠ '.') :
    ((A ++ '.' :: (B ++ '.' :: C)).splitOn '.').length =
      C.countP (fun x => x == '.') + 3 := by
  rw [length_splitOn_char]
  have hcA : A.countP (fun x => x == '.') = 0 :=
    List.countP_eq_zero.mpr (fun a ha => by simp [hA a ha])
  have hcB : B.countP (fun x => x == '.') = 0 :=
    List.countP_eq_zero.mpr (fun a ha => by simp [hB a ha])
  simp [List.countP_append, List.countP_cons, hcA, hcB]

theorem token_parts_count (A B C : List Char) :
    ((A ++ '.' :: (B ++ '.' :: C)).splitOn '.').length =
      A.countP (fun x => x == '.') + B.countP (fun x => x == '.') +
        C.countP (fun x => x == '.') + 3 := by
  rw [length_splitOn_char]
  simp only [List.countP_append, List.countP_cons]
  norm_num
  omega

theorem jwtVerify_ok_shape {t : String} {now : Nat} {p : JWTPayload}
    (h : jwtVerify t now = Except.ok p) :
    ∃ hd cl : String, (∀ x ∈ hd.data, x ≠ '.') ∧ (∀ x ∈ cl.data, x ≠ '.') ∧
      t = hd ++ "." ++ cl ++ "." ++ hmacSHA256 JWT_SECRET (hd ++ "." ++ cl) ∧
      decodePayload cl = some p ∧ now < p.exp := by
  unfold jwtVerify at h
  split at h
  · rename_i a b c heq
    by_cases hsig : c = (hmacSHA256 JWT_SECRET (String.mk (a ++ '.' :: b))).data
    · rw [if_pos hsig] at h
      cases hdec : decodePayloadL b with
      | none => rw [hdec] at h; exact absurd h (by simp)
      | some q =>
        rw [hdec] at h
        have h2 : (if q.exp ≤ now then (Except.error JwtLibError.tokenExpired :
            Except JwtLibError JWTPayload) else Except.ok q) = Except.ok p := h
        by_cases hexp : q.exp ≤ now
        · rw [if_pos hexp] at h2; exact absurd h2 (by simp)
        · rw [if_neg hexp] at h2
          have hqp : q = p := by simpa using h2
          subst hqp
          have hmemA : a ∈ t.data.splitOn '.' := by rw [heq]; simp
          have hmemB : b ∈ t.data.splitOn '.' := by rw [heq]; simp
          have hX : (String.mk a) ++ "." ++ (String.mk b) = String.mk (a ++ '.' :: b) := by
            apply String.ext
            simp [String.data_append]
          have hi := List.intercalate_splitOn t.data '.'
          rw [heq] at hi
          have ht : t.data = a ++ '.' :: (b ++ '.' :: c) := by
            rw [← hi]
            simp [List.intercalate, List.intersperse]
          refine ⟨String.mk a, String.mk b, splitOn_parts_ne hmemA,
            splitOn_parts_ne hmemB, ?_, hdec, by omega⟩
          rw [hX]
          apply String.ext
          have hr : (String.mk (a ++ '.' :: b) ++ "." ++
              hmacSHA256 JWT_SECRET (String.mk (a ++ '.' :: b))).data =
              a ++ '.' :: (b ++ '.' ::
                (hmacSHA256 JWT_SECRET (String.mk (a ++ '.' :: b))).data) := by
            simp [String.data_append]
          rw [hr, ← hsig]
          exact ht
    · rw [if_neg hsig] at h
      exact absurd h (by simp)
  · exact absurd h (by simp)

theorem verifyToken_sig_tamper (p : JWTPayload) (now : Nat) (s' : String)
    (hs : s' ≠ hmacSHA256 JWT_SECRET (jwtHeaderEnc ++ "." ++ encodePayload p)) :
    verifyToken (jwtHeaderEnc ++ "." ++ encodePayload p ++ "." ++ s') now =
      Except.error "Invalid token" := by
  by_cases hdot : ∀ x ∈ s'.data, x ≠ '.'
  · have hsp : ((jwtHeaderEnc ++ "." ++ encodePayload p ++ "." ++ s').data).splitOn '.' =
        [jwtHeaderEnc.data, (encodePayload p).data, s'.data] := by
      rw [token_data]
      exact splitOn_three _ _ _ jwtHeaderEnc_ne_dot (encodePayload_ne_dot p) hdot
    have hv : jwtVerify (jwtHeaderEnc ++ "." ++ encodePayload p ++ "." ++ s') now =
        Except.error JwtLibError.invalidSignature := by
      unfold jwtVerify
      rw [hsp]
      simp only []
      have hne : ¬ (s'.data = (hmacSHA256 JWT_SECRET
          (String.mk (jwtHeaderEnc.data ++ '.' :: (encodePayload p).data))).data) := by
        intro hceq
        apply hs
        apply String.ext
        rw [hceq, body_mk_eq]
      rw [if_neg hne]
    exact verifyToken_of_jwtVerify_error hv
  · push_neg at hdot
    obtain ⟨x, hxmem, hxdot⟩ := hdot
    have hcount : 0 < s'.data.countP (fun y => y == '.') :=
      List.countP_pos_iff.mpr ⟨x, hxmem, by simp [hxdot]⟩
    apply verifyToken_of_jwtVerify_error
    apply jwtVerify_malformed_of_ne_three
    rw [token_data, token_parts_count]
    omega

theorem verifyToken_claims_tamper (p : JWTPayload) (now : Nat) (c' : String)
    (hc : c' ≠ encodePayload p) :
    verifyToken (jwtHeaderEnc ++ "." ++ c' ++ "." ++
      hmacSHA256 JWT_SECRET (jwtHeaderEnc ++ "." ++ encodePayload p)) now =
      Except.error "Invalid token" := by
  by_cases hdot : ∀ x ∈ c'.data, x ≠ '.'
  · have hsp : ((jwtHeaderEnc ++ "." ++ c' ++ "." ++
        hmacSHA256 JWT_SECRET (jwtHeaderEnc ++ "." ++ encodePayload p)).data).splitOn '.' =
        [jwtHeaderEnc.data, c'.data,
          (hmacSHA256 JWT_SECRET (jwtHeaderEnc ++ "." ++ encodePayload p)).data] := by
      rw [token_data]
      exact splitOn_three _ _ _ jwtHeaderEnc_ne_dot hdot (hmacSHA256_ne_dot _ _)
    have hv : jwtVerify (jwtHeaderEnc ++ "." ++ c' ++ "." ++
        hmacSHA256 JWT_SECRET (jwtHeaderEnc ++ "." ++ encodePayload p)) now =
        Except.error JwtLibError.invalidSignature := by
      unfold jwtVerify
      rw [hsp]
      simp only []
      have hne : ¬ ((hmacSHA256 JWT_SECRET (jwtHeaderEnc ++ "." ++ encodePayload p)).data =
          (hmacSHA256 JWT_SECRET
            (String.mk (jwtHeaderEnc.data ++ '.' :: c'.data))).data) := by
        intro hceq
        have heq : hmacSHA256 JWT_SECRET (jwtHeaderEnc ++ "." ++ encodePayload p) =
            hmacSHA256 JWT_SECRET (String.mk (jwtHeaderEnc.data ++ '.' :: c'.data)) :=
          String.ext hceq
        rw [← body_mk_eq] at heq
        have hinj := hmac_body_inj jwtHeaderEnc_ne_dot (encodePayload_ne_dot p) hdot heq
        exact hc (String.ext hinj.symm)
      rw [if_neg hne]
    exact verifyToken_of_jwtVerify_error hv
  · push_neg at hdot
    obtain ⟨x, hxmem, hxdot⟩ := hdot
    have hcount : 0 < c'.data.countP (fun y => y == '.') :=
      List.countP_pos_iff.mpr ⟨x, hxmem, by simp [hxdot]⟩
    apply verifyToken_of_jwtVerify_error
    apply jwtVerify_malformed_of_ne_three
    rw [token_data, token_parts_count]
    omega

theorem extractBearerToken_bearer (t : String) :
    extractBearerToken (some ("Bearer " ++ t)) = some t := by
  have hpre : ("Bearer ".data.isPrefixOf ("Bearer " ++ t).data) = true := by
    apply List.isPrefixOf_iff_prefix.mpr
    exact ⟨t.data, by simp [String.data_append]⟩
  have hne : ("Bearer " ++ t) ≠ "" := by
    intro hempty
    have := congrArg String.data hempty
    simp [String.data_append] at this
  show (if ("Bearer " ++ t) = "" ∨ ¬ ("Bearer ".data.isPrefixOf ("Bearer " ++ t).data)
      then none else some (String.mk (("Bearer " ++ t).data.drop 7))) = some t
  rw [if_neg (by simp [hpre, hne])]
  have hdrop : ("Bearer " ++ t).data.drop 7 = t.data := by
    rw [String.data_append]
    have h7 : ("Bearer ".data).length = 7 := by decide
    rw [← h7, List.drop_left]
  rw [hdrop]

theorem extractBearerToken_some_inv {s t : String}
    (h : extractBearerToken (some s) = some t) : s = "Bearer " ++ t := by
  have h2 : (if s = "" ∨ ¬ ("Bearer ".data.isPrefixOf s.data) then none
      else some (String.mk (s.data.drop 7))) = some t := h
  by_cases hcond : s = "" ∨ ¬ ("Bearer ".data.isPrefixOf s.data)
  · rw [if_pos hcond] at h2
    exact absurd h2 (by simp)
  · rw [if_neg hcond] at h2
    push_neg at hcond
    obtain ⟨u, hu⟩ := List.isPrefixOf_iff_prefix.mp hcond.2
    have ht : t = String.mk (s.data.drop 7) := by
      injection h2 with h2
      exact h2.symm
    apply String.ext
    rw [String.data_append, ht]
    rw [← hu]
    have h7 : ("Bearer ".data).length = 7 := by decide
    rw [show (("Bearer ".data ++ u).drop 7) = u from by rw [← h7, List.drop_left]]

theorem jwtSign_ne_empty (p : JWTPayload) : jwtSign p ≠ "" := by
  intro hempty
  have := congrArg String.data hempty
  rw [jwtSign_data] at this
  simp at this

theorem nameErrors_eq_nil_iff {s : String} :
    nameErrors s = [] ↔ 2 ≤ s.length ∧ s.length ≤ 100 := by
  unfold nameErrors
  split_ifs <;> simp <;> omega

theorem emailErrors_eq_nil_iff {s : String} :
    emailErrors s = [] ↔ zodEmailCheck s = true := by
  unfold emailErrors
  split_ifs with h <;> simp [h]

theorem messageErrors_eq_nil_iff {s : String} :
    messageErrors s = [] ↔ 10 ≤ s.length ∧ s.length ≤ 1000 := by
  unfold messageErrors
  split_ifs <;> simp <;> omega

theorem messageSchemaAccepts_iff {i : MessageInput} :
    messageSchemaAccepts i = true ↔
      (2 ≤ i.name.length ∧ i.name.length ≤ 100 ∧ zodEmailCheck i.email = true ∧
        10 ≤ i.message.length ∧ i.message.length ≤ 1000) := by
  unfold messageSchemaAccepts
  rw [Bool.and_eq_true, Bool.and_eq_true, List.isEmpty_iff, List.isEmpty_iff,
    List.isEmpty_iff, nameErrors_eq_nil_iff, emailErrors_eq_nil_iff,
    messageErrors_eq_nil_iff]
  tauto

theorem loginSchemaAccepts_iff {u p : String} :
    loginSchemaAccepts u p = true ↔ 3 ≤ u.length ∧ 6 ≤ p.length := by
  unfold loginSchemaAccepts usernameErrors passwordErrors
  rw [Bool.and_eq_true, List.isEmpty_iff, List.isEmpty_iff]
  split_ifs <;> simp <;> omega

theorem authenticateRequest_bearer (t : String) (now : Nat) (hne : t ≠ "") :
    authenticateRequest (some ("Bearer " ++ t)) now = verifyToken t now := by
  unfold authenticateRequest
  rw [extractBearerToken_bearer]
  show (if t = "" then Except.error "No token provided" else verifyToken t now) =
    verifyToken t now
  rw [if_neg hne]

/-- C2 (amended): every request to POST /messages whose authentication fails is
answered 401 with the error field uniformly Unauthorized, but the body's
message field carries the message of the specific authentication failure, so
bodies of requests failing for different sub-causes need not be identical. -/
theorem claim_C2 :
    ∀ h : Option String, ∀ now : Nat, ∀ body : MessageInput, ∀ m : String,
      authenticateRequest h now = Except.error m →
      messagesPOST h now body = ⟨401, Json.obj [("error", Json.str "Unauthorized"),
        ("message", Json.str m)]⟩ := by
  intro h now body m hauth
  unfold messagesPOST
  rw [hauth]

/-- C2 witness: a request with no Authorization header is answered with the
uniform 401 status and Unauthorized error field. -/
theorem claim_C2_witness :
    messagesPOST none 0 ⟨"Jo", "a@b.com", "this is a long enough message"⟩ =
      ⟨401, Json.obj [("error", Json.str "Unauthorized"),
        ("message", Json.str "No token provided")]⟩ :=
  claim_C2 none 0 ⟨"Jo", "a@b.com", "this is a long enough message"⟩
    "No token provided" rfl

/-- C2 counterexample: a request with no Authorization header and a request
with a tampered token both fail authentication and both get status 401, but
their response bodies differ (the message field names the sub-cause), so the
claim that the bodies are identical is false. -/
theorem claim_C2_counterexample :
    (messagesPOST none 0 ⟨"Jo", "a@b.com", "this is a long enough message"⟩).status
        = 401 ∧
    (messagesPOST (some "Bearer x") 0
        ⟨"Jo", "a@b.com", "this is a long enough message"⟩).status = 401 ∧
    (messagesPOST none 0 ⟨"Jo", "a@b.com", "this is a long enough message"⟩).body ≠
      (messagesPOST (some "Bearer x") 0
        ⟨"Jo", "a@b.com", "this is a long enough message"⟩).body := by
  refine ⟨rfl, rfl, ?_⟩
  show Json.obj [("error", Json.str "Unauthorized"),
      ("message", Json.str "No token provided")] ≠
    Json.obj [("error", Json.str "Unauthorized"),
      ("message", Json.str "Invalid token")]
  simp

/-- C3: the claim that an expired, correctly signed token is rejected with the
distinct failure Token expired is contradicted by the code: TokenExpiredError
is a subclass of JsonWebTokenError in the jsonwebtoken library, the catch
branch for JsonWebTokenError comes first, and so verifyToken surfaces an
expired token as Invalid token; the Token expired branch is unreachable.
This theorem evaluates the code at a failing input: a token signed at time 0
with one-hour validity and verified at time 3600. -/
theorem claim_C3_evidence :
    jwtVerify (signToken "1" "demo" 0 3600) 3600 =
      Except.error JwtLibError.tokenExpired ∧
    JwtLibError.tokenExpired.isJsonWebTokenError = true ∧
    verifyToken (signToken "1" "demo" 0 3600) 3600 = Except.error "Invalid token" ∧
    ("Invalid token" : String) ≠ "Token expired" :=
  ⟨rfl, rfl, rfl, by decide⟩

/-- C4 (amended): for every login body that passes the login schema (username
at least 3 characters, password at least 6) and matches no account in the
fixed list, the login route answers the uniform 401 Invalid credentials body,
regardless of which field was wrong and with no per-field diagnostic. -/
theorem claim_C4 :
    ∀ body : LoginBody, ∀ now : Nat,
      3 ≤ body.username.length → 6 ≤ body.password.length →
      (∀ u ∈ MOCK_USERS, ¬(u.username = body.username ∧ u.password = body.password)) →
      loginPOST body now =
        ⟨401, Json.obj [("error", Json.str "Invalid credentials")]⟩ := by
  intro body now hu hp hno
  have hnone : MOCK_USERS.find?
      (fun u => u.username == body.username && u.password == body.password) = none := by
    apply List.find?_eq_none.mpr
    intro u humem
    simp only [Bool.and_eq_true, beq_iff_eq]
    exact hno u humem
  unfold loginPOST
  rw [if_pos (loginSchemaAccepts_iff.mpr ⟨hu, hp⟩), hnone]

/-- C4 witness: a wrong password for an existing username gets the uniform
401 Invalid credentials response. -/
theorem claim_C4_witness :
    loginPOST ⟨"demo", "wrong123"⟩ 0 =
      ⟨401, Json.obj [("error", Json.str "Invalid credentials")]⟩ :=
  claim_C4 ⟨"demo", "wrong123"⟩ 0 (by decide) (by decide) (by decide)

/-- C4 counterexample: the pair username ab, password password1 matches no
account, yet the login route answers 400, not 401, and its body carries a
details object naming the username field, refuting the claim that every
non-matching pair gets the uniform 401 with no field diagnostic. -/
theorem claim_C4_counterexample :
    (∀ u ∈ MOCK_USERS, ¬(u.username = "ab" ∧ u.password = "password1")) ∧
    (loginPOST ⟨"ab", "password1"⟩ 0).status = 400 ∧
    (loginPOST ⟨"ab", "password1"⟩ 0).body =
      Json.obj [("error", Json.str "Validation failed"),
        ("details", Json.obj [("username",
          Json.arr [Json.str "Username must be at least 3 characters"])])] :=
  ⟨by decide, rfl, rfl⟩

/-- C7: authentication precedes validation on POST /messages: when
authentication fails the response is 401 and is independent of the body, so
the validation step never influences it; and a 400 response occurs only when
authentication succeeded. -/
theorem claim_C7 :
    ∀ h : Option String, ∀ now : Nat, ∀ body : MessageInput,
      (∀ m : String, authenticateRequest h now = Except.error m →
        (messagesPOST h now body).status = 401 ∧
        ∀ body2 : MessageInput, messagesPOST h now body = messagesPOST h now body2) ∧
      ((messagesPOST h now body).status = 400 →
        ∃ p : JWTPayload, authenticateRequest h now = Except.ok p) := by
  intro h now body
  constructor
  · intro m hauth
    constructor
    · unfold messagesPOST
      rw [hauth]
    · intro body2
      unfold messagesPOST
      rw [hauth]
  · intro h400
    cases hauth : authenticateRequest h now with
    | error m =>
      exfalso
      unfold messagesPOST at h400
      rw [hauth] at h400
      have hx : (401 : Nat) = 400 := h400
      exact absurd hx (by norm_num)
    | ok p => exact ⟨p, rfl⟩

/-- C7 witness: with no Authorization header and a body that would also fail
validation, the response is 401 and coincides with the response for a valid
body. -/
theorem claim_C7_witness :
    (messagesPOST none 0 ⟨"A", "x@x", "short"⟩).status = 401 ∧
    messagesPOST none 0 ⟨"A", "x@x", "short"⟩ =
      messagesPOST none 0 ⟨"Jo", "a@b.com", "this is a long enough message"⟩ :=
  ⟨((claim_C7 none 0 ⟨"A", "x@x", "short"⟩).1 "No token provided" rfl).1,
   ((claim_C7 none 0 ⟨"A", "x@x", "short"⟩).1 "No token provided" rfl).2
     ⟨"Jo", "a@b.com", "this is a long enough message"⟩⟩

/-- C10: a request whose Authorization header is exactly Bearer-space yields
the empty extracted token, and authenticateRequest classifies it as the
missing-token failure No token provided; the result is fixed before any
signature verification could run. -/
theorem claim_C10 :
    ∀ now : Nat,
      extractBearerToken (some "Bearer ") = some "" ∧
      authenticateRequest (some "Bearer ") now = Except.error "No token provided" :=
  fun _ => ⟨rfl, rfl⟩

/-- C1: for every account in the fixed list, logging in with exactly its
username and password answers 200 with a token and the public identity
fields, and authenticateRequest on a request carrying Authorization
Bearer-token succeeds (at any time before expiry) with claims whose userId
and username equal the account's id and username. -/
theorem claim_C1 :
    ∀ u ∈ MOCK_USERS, ∀ t0 t : Nat, t < t0 + 3600 →
      loginPOST ⟨u.username, u.password⟩ t0 =
        ⟨200, Json.obj [("success", Json.bool true),
          ("token", Json.str (signToken u.id u.username t0 3600)),
          ("user", Json.obj [("id", Json.str u.id),
            ("username", Json.str u.username)])]⟩ ∧
      authenticateRequest (some ("Bearer " ++ signToken u.id u.username t0 3600)) t =
        Except.ok ⟨u.id, u.username, t0, t0 + 3600⟩ := by
  intro u hu t0 t ht
  fin_cases hu
  · refine ⟨rfl, ?_⟩
    show authenticateRequest (some ("Bearer " ++ signToken "1" "demo" t0 3600)) t =
      Except.ok ⟨"1", "demo", t0, t0 + 3600⟩
    rw [authenticateRequest_bearer (signToken "1" "demo" t0 3600) t
      (jwtSign_ne_empty ⟨"1", "demo", t0, t0 + 3600⟩)]
    exact verifyToken_of_jwtVerify_ok (jwtVerify_jwtSign _ t (by exact ht))
  · refine ⟨rfl, ?_⟩
    show authenticateRequest
        (some ("Bearer " ++ signToken "2" "testuser" t0 3600)) t =
      Except.ok ⟨"2", "testuser", t0, t0 + 3600⟩
    rw [authenticateRequest_bearer (signToken "2" "testuser" t0 3600) t
      (jwtSign_ne_empty ⟨"2", "testuser", t0, t0 + 3600⟩)]
    exact verifyToken_of_jwtVerify_ok (jwtVerify_jwtSign _ t (by exact ht))

/-- C1 witness: the demo account logs in and its token authenticates at a
time before expiry. -/
theorem claim_C1_witness :
    loginPOST ⟨"demo", "demo123"⟩ 5 =
      ⟨200, Json.obj [("success", Json.bool true),
        ("token", Json.str (signToken "1" "demo" 5 3600)),
        ("user", Json.obj [("id", Json.str "1"), ("username", Json.str "demo")])]⟩ ∧
    authenticateRequest (some ("Bearer " ++ signToken "1" "demo" 5 3600)) 5 =
      Except.ok ⟨"1", "demo", 5, 5 + 3600⟩ :=
  claim_C1 ⟨"1", "demo", "demo123"⟩ (by decide) 5 5 (by decide)

/-- C5: authenticateRequest proceeds to signature verification exactly when
the Authorization header is the literal case-sensitive Bearer-space prefix
followed by a non-empty token, which is the substring after the prefix; any
other header shape is answered with the No token provided failure. -/
theorem claim_C5 :
    ∀ h : Option String, ∀ now : Nat,
      (∀ t : String, t ≠ "" → h = some ("Bearer " ++ t) →
        extractBearerToken h = some t ∧
        authenticateRequest h now = verifyToken t now) ∧
      ((¬ ∃ t : String, t ≠ "" ∧ h = some ("Bearer " ++ t)) →
        authenticateRequest h now = Except.error "No token provided") := by
  intro h now
  constructor
  · intro t htne hh
    subst hh
    exact ⟨extractBearerToken_bearer t, authenticateRequest_bearer t now htne⟩
  · intro hnex
    cases h with
    | none => rfl
    | some s =>
      unfold authenticateRequest
      cases hx : extractBearerToken (some s) with
      | none => rfl
      | some t =>
        by_cases ht : t = ""
        · show (if t = "" then Except.error "No token provided" else verifyToken t now) =
            Except.error "No token provided"
          rw [if_pos ht]
        · exact absurd ⟨t, ht, by rw [extractBearerToken_some_inv hx]⟩ hnex

/-- C5 witness: the well-formed header Bearer abc extracts the token abc and
hands it to verification, while the lowercase header bearer x is rejected as
missing a token. -/
theorem claim_C5_witness :
    (extractBearerToken (some "Bearer abc") = some "abc" ∧
      authenticateRequest (some "Bearer abc") 0 = verifyToken "abc" 0) ∧
    authenticateRequest (some "bearer x") 0 = Except.error "No token provided" :=
  ⟨(claim_C5 (some "Bearer abc") 0).1 "abc" (by decide) rfl,
   (claim_C5 (some "bearer x") 0).2 (by
     rintro ⟨t, _, heq⟩
     have h2 : ("bearer x" : String) = "Bearer " ++ t := Option.some.inj heq
     have h3 := congrArg String.data h2
     rw [String.data_append] at h3
     simp at h3)⟩

/-- C9: every successful login issues, for the matched account, a token whose
decoded claims have issued-at equal to the login time and expires-at equal to
issued-at plus one hour, and the response carries the account's public id and
username fields. -/
theorem claim_C9 :
    ∀ body : LoginBody, ∀ now : Nat, (loginPOST body now).status = 200 →
      ∃ u ∈ MOCK_USERS,
        loginPOST body now = ⟨200, Json.obj [("success", Json.bool true),
          ("token", Json.str (signToken u.id u.username now 3600)),
          ("user", Json.obj [("id", Json.str u.id),
            ("username", Json.str u.username)])]⟩ ∧
        ∃ claims : JWTPayload,
          jwtVerify (signToken u.id u.username now 3600) now = Except.ok claims ∧
          claims.iat = now ∧ claims.exp = claims.iat + 3600 ∧
          claims.userId = u.id ∧ claims.username = u.username := by
  intro body now hst
  by_cases hacc : loginSchemaAccepts body.username body.password = true
  · cases hfind : MOCK_USERS.find?
        (fun u => u.username == body.username && u.password == body.password) with
    | none =>
      exfalso
      unfold loginPOST at hst
      rw [if_pos hacc, hfind] at hst
      have hx : (401 : Nat) = 200 := hst
      exact absurd hx (by norm_num)
    | some u =>
      refine ⟨u, List.mem_of_find?_eq_some hfind, ?_,
        ⟨u.id, u.username, now, now + 3600⟩,
        jwtVerify_jwtSign _ now (by show now < now + 3600; omega),
        rfl, rfl, rfl, rfl⟩
      unfold loginPOST
      rw [if_pos hacc, hfind]
  · exfalso
    unfold loginPOST at hst
    rw [if_neg hacc] at hst
    have hx : (400 : Nat) = 200 := hst
    exact absurd hx (by norm_num)

/-- C9 witness: logging in as the demo account at time 0 issues a token whose
claims expire exactly one hour after issuance. -/
theorem claim_C9_witness :
    ∃ u ∈ MOCK_USERS,
      loginPOST ⟨"demo", "demo123"⟩ 0 = ⟨200, Json.obj [("success", Json.bool true),
        ("token", Json.str (signToken u.id u.username 0 3600)),
        ("user", Json.obj [("id", Json.str u.id),
          ("username", Json.str u.username)])]⟩ ∧
      ∃ claims : JWTPayload,
        jwtVerify (signToken u.id u.username 0 3600) 0 = Except.ok claims ∧
        claims.iat = 0 ∧ claims.exp = claims.iat + 3600 ∧
        claims.userId = u.id ∧ claims.username = u.username :=
  claim_C9 ⟨"demo", "demo123"⟩ 0 rfl

theorem nameErrors_single {s : String} :
    nameErrors s = [] ∨ ∃ r, nameErrors s = [r] := by
  unfold nameErrors
  by_cases h1 : s.length < 2
  · by_cases h2 : s.length > 100
    · omega
    · rw [if_pos h1, if_neg h2]
      exact Or.inr ⟨_, rfl⟩
  · by_cases h2 : s.length > 100
    · rw [if_neg h1, if_pos h2]
      exact Or.inr ⟨_, rfl⟩
    · rw [if_neg h1, if_neg h2]
      exact Or.inl rfl

theorem emailErrors_single {s : String} :
    emailErrors s = [] ∨ ∃ r, emailErrors s = [r] := by
  unfold emailErrors
  by_cases h : zodEmailCheck s
  · rw [if_pos h]
    exact Or.inl rfl
  · rw [if_neg h]
    exact Or.inr ⟨_, rfl⟩

theorem messageErrors_single {s : String} :
    messageErrors s = [] ∨ ∃ r, messageErrors s = [r] := by
  unfold messageErrors
  by_cases h1 : s.length < 10
  · by_cases h2 : s.length > 1000
    · omega
    · rw [if_pos h1, if_neg h2]
      exact Or.inr ⟨_, rfl⟩
  · by_cases h2 : s.length > 1000
    · rw [if_neg h1, if_pos h2]
      exact Or.inr ⟨_, rfl⟩
    · rw [if_neg h1, if_neg h2]
      exact Or.inl rfl

/-- C6: the message schema accepts exactly when the name length is within 2
and 100, the email matches the schema's address grammar, and the message
length is within 10 and 1000; on failure the field-error mapping has one
entry per failing field, each carrying a single reason; the specific bad
triple is rejected with three distinct field errors and the specific good
triple is accepted. -/
theorem claim_C6 :
    ∀ i : MessageInput,
      (messageSchemaAccepts i = true ↔
        (2 ≤ i.name.length ∧ i.name.length ≤ 100 ∧ zodEmailCheck i.email = true ∧
          10 ≤ i.message.length ∧ i.message.length ≤ 1000)) ∧
      ((messageSchemaFieldErrors i).map Prod.fst =
        (if 2 ≤ i.name.length ∧ i.name.length ≤ 100 then [] else ["name"]) ++
        (if zodEmailCheck i.email = true then [] else ["email"]) ++
        (if 10 ≤ i.message.length ∧ i.message.length ≤ 1000 then []
         else ["message"])) ∧
      (∀ e ∈ messageSchemaFieldErrors i, ∃ r : String,
        e.2 = Json.arr [Json.str r]) ∧
      messageSchemaFieldErrors ⟨"A", "x@x", "short"⟩ =
        [("name", Json.arr [Json.str "Name must be at least 2 characters"]),
         ("email", Json.arr [Json.str "Invalid email address"]),
         ("message", Json.arr [Json.str "Message must be at least 10 characters"])] ∧
      messageSchemaAccepts ⟨"A", "x@x", "short"⟩ = false ∧
      messageSchemaAccepts ⟨"Jo", "a@b.com", "this is a long enough message"⟩
        = true := by
  intro i
  refine ⟨messageSchemaAccepts_iff, ?_, ?_, rfl, rfl, rfl⟩
  · unfold messageSchemaFieldErrors
    rw [List.map_append, List.map_append]
    have hname : ((if nameErrors i.name = [] then ([] : List (String × Json))
        else [("name", Json.arr ((nameErrors i.name).map Json.str))]).map Prod.fst) =
        (if 2 ≤ i.name.length ∧ i.name.length ≤ 100 then [] else ["name"]) := by
      by_cases hn : nameErrors i.name = []
      · rw [if_pos hn, if_pos (nameErrors_eq_nil_iff.mp hn)]
        rfl
      · rw [if_neg hn, if_neg (fun hc => hn (nameErrors_eq_nil_iff.mpr hc))]
        rfl
    have hemail : ((if emailErrors i.email = [] then ([] : List (String × Json))
        else [("email", Json.arr ((emailErrors i.email).map Json.str))]).map Prod.fst) =
        (if zodEmailCheck i.email = true then [] else ["email"]) := by
      by_cases he : emailErrors i.email = []
      · rw [if_pos he, if_pos (emailErrors_eq_nil_iff.mp he)]
        rfl
      · rw [if_neg he, if_neg (fun hc => he (emailErrors_eq_nil_iff.mpr hc))]
        rfl
    have hmsg : ((if messageErrors i.message = [] then ([] : List (String × Json))
        else [("message",
          Json.arr ((messageErrors i.message).map Json.str))]).map Prod.fst) =
        (if 10 ≤ i.message.length ∧ i.message.length ≤ 1000 then []
         else ["message"]) := by
      by_cases hm : messageErrors i.message = []
      · rw [if_pos hm, if_pos (messageErrors_eq_nil_iff.mp hm)]
        rfl
      · rw [if_neg hm, if_neg (fun hc => hm (messageErrors_eq_nil_iff.mpr hc))]
        rfl
    rw [hname, hemail, hmsg]
  · intro e he
    unfold messageSchemaFieldErrors at he
    simp only [List.mem_append] at he
    rcases he with (he | he) | he
    · by_cases hn : nameErrors i.name = []
      · rw [if_pos hn] at he
        simp at he
      · rw [if_neg hn] at he
        simp only [List.mem_singleton] at he
        rcases nameErrors_single with h | ⟨r, hr⟩
        · exact absurd h hn
        · exact ⟨r, by rw [he]; simp [hr]⟩
    · by_cases hn : emailErrors i.email = []
      · rw [if_pos hn] at he
        simp at he
      · rw [if_neg hn] at he
        simp only [List.mem_singleton] at he
        rcases emailErrors_single with h | ⟨r, hr⟩
        · exact absurd h hn
        · exact ⟨r, by rw [he]; simp [hr]⟩
    · by_cases hn : messageErrors i.message = []
      · rw [if_pos hn] at he
        simp at he
      · rw [if_neg hn] at he
        simp only [List.mem_singleton] at he
        rcases messageErrors_single with h | ⟨r, hr⟩
        · exact absurd h hn
        · exact ⟨r, by rw [he]; simp [hr]⟩

/-- C6 witness: the acceptance characterisation applied to the good concrete
triple, with its side conditions discharged concretely. -/
theorem claim_C6_witness :
    messageSchemaAccepts ⟨"Jo", "a@b.com", "this is a long enough message"⟩
      = true :=
  (claim_C6 ⟨"Jo", "a@b.com", "this is a long enough message"⟩).1.mpr (by decide)

/-- C8: tamper evidence of the token scheme: the only header.claims.signature
strings the Authenticator accepts are those whose signature is the MAC,
under the shared secret, of exactly that header and claims segment; replacing
the signature of an issued token by any other string, or replacing its claims
segment by any other string while keeping its signature, yields a token that
verifyToken rejects as invalid and never accepts. -/
theorem claim_C8 :
    (∀ t : String, ∀ now : Nat, ∀ p : JWTPayload,
      verifyToken t now = Except.ok p →
      ∃ hd cl : String,
        t = hd ++ "." ++ cl ++ "." ++ hmacSHA256 JWT_SECRET (hd ++ "." ++ cl) ∧
        decodePayload cl = some p) ∧
    (∀ p : JWTPayload, ∀ now : Nat, ∀ s' : String,
      s' ≠ hmacSHA256 JWT_SECRET (jwtHeaderEnc ++ "." ++ encodePayload p) →
      verifyToken (jwtHeaderEnc ++ "." ++ encodePayload p ++ "." ++ s') now =
        Except.error "Invalid token") ∧
    (∀ p : JWTPayload, ∀ now : Nat, ∀ c' : String,
      c' ≠ encodePayload p →
      verifyToken (jwtHeaderEnc ++ "." ++ c' ++ "." ++
        hmacSHA256 JWT_SECRET (jwtHeaderEnc ++ "." ++ encodePayload p)) now =
        Except.error "Invalid token") := by
  refine ⟨?_, verifyToken_sig_tamper, verifyToken_claims_tamper⟩
  intro t now p hok
  obtain ⟨hd, cl, _, _, hshape, hdec, _⟩ :=
    jwtVerify_ok_shape (jwtVerify_of_verifyToken_ok hok)
  exact ⟨hd, cl, hshape, hdec⟩

/-- C8 witness: the issued demo token decomposes as a correctly signed
header.claims.signature; replacing its signature by the string x, or its
claims segment by the string x, is rejected as invalid. -/
theorem claim_C8_witness :
    (∃ hd cl : String,
      jwtSign ⟨"1", "demo", 0, 3600⟩ =
        hd ++ "." ++ cl ++ "." ++ hmacSHA256 JWT_SECRET (hd ++ "." ++ cl) ∧
      decodePayload cl = some ⟨"1", "demo", 0, 3600⟩) ∧
    verifyToken (jwtHeaderEnc ++ "." ++ encodePayload ⟨"1", "demo", 0, 3600⟩ ++
        "." ++ "x") 0 = Except.error "Invalid token" ∧
    verifyToken (jwtHeaderEnc ++ "." ++ "x" ++ "." ++
        hmacSHA256 JWT_SECRET
          (jwtHeaderEnc ++ "." ++ encodePayload ⟨"1", "demo", 0, 3600⟩)) 0 =
      Except.error "Invalid token" :=
  ⟨claim_C8.1 (jwtSign ⟨"1", "demo", 0, 3600⟩) 0 ⟨"1", "demo", 0, 3600⟩ rfl,
   claim_C8.2.1 ⟨"1", "demo", 0, 3600⟩ 0 "x" (by decide),
   claim_C8.2.2 ⟨"1", "demo", 0, 3600⟩ 0 "x" (by decide)⟩
